import Mathlib

/-!
Verification of the trade-bot backtesting core against its specification.

The embedding translates the Python code of the repository
(backend/app/backtest/runner.py, backend/app/backtest/schemas.py and
backend/app/strategies/vwap_ma_volume.py, embedded in the implementation
plan) into Lean. Machine floats are modelled as exact rationals; Python's
two-argument round (round-half-to-even) is modelled exactly on rationals;
math.sqrt (a library call on floats) is abstracted as an explicit function
parameter `sq : ℚ → ℚ` of the metrics calculator.

The Backtrader engine itself (order dispatch, broker fills) is an external
library, not part of the repository; where its behaviour decides a claim it
is modelled from the spec (sections 4.3 and 4.4), and the definitions say so
in their doc comments.
-/

namespace TradeBot

/-- OHLCV bar, one sample of the input series (schemas: bar fields
datetime, open, high, low, close, volume). Timestamps are naturals. -/
structure Bar where
  timestamp : ℕ
  openPrice : ℚ
  high : ℚ
  low : ℚ
  close : ℚ
  volume : ℚ
deriving DecidableEq, Repr

/-- One point of the equity (or drawdown) curve: schemas.EquityPoint. -/
structure EquityPoint where
  timestamp : ℕ
  equity : ℚ
deriving DecidableEq, Repr

/-- A closed trade as consumed by calculate_metrics, which reads only the
pnl field of each trade dict. -/
structure Trade where
  pnl : ℚ
deriving DecidableEq, Repr

/-- Python's int() applied to a rational: truncation toward zero. -/
def intTrunc (q : ℚ) : ℤ :=
  if 0 ≤ q then ⌊q⌋ else -⌊-q⌋

/-- Python's round(x) tie-breaking: round half to even, on exact rationals. -/
def roundHalfEven (q : ℚ) : ℤ :=
  let f := ⌊q⌋
  let r := q - f
  if r < 1/2 then f
  else if 1/2 < r then f + 1
  else if f % 2 = 0 then f else f + 1

/-- Python's round(x, d) on exact rationals. -/
def roundTo (d : ℕ) (q : ℚ) : ℚ :=
  (roundHalfEven (q * 10 ^ d) : ℚ) / 10 ^ d

/-- round(x, 2), used for most reported metrics. -/
def round2 (q : ℚ) : ℚ := roundTo 2 q

/-- round(x, 1), used for the reported win rate. -/
def round1 (q : ℚ) : ℚ := roundTo 1 q

/-- Mean of a list of rationals (sum/len; 0 on the empty list since x/0 = 0
in ℚ, matching the guarded uses in the Python). -/
def mean (xs : List ℚ) : ℚ := xs.sum / xs.length

/-- pandas Series.pct_change().dropna(): consecutive relative changes. -/
def pctChange (xs : List ℚ) : List ℚ :=
  List.zipWith (fun a b => (b - a) / a) xs xs.tail

/-- pandas Series.std(): the sample variance (ddof = 1) under the square
root; 0 when fewer than two samples exist (where pandas yields NaN, which
the code's only use, a comparison with 0, treats the same way). -/
def sampleVar (xs : List ℚ) : ℚ :=
  if xs.length ≤ 1 then 0
  else ((xs.map (fun x => (x - mean xs) ^ 2)).sum) / ((xs.length : ℚ) - 1)

/-- calculate_metrics: wins = trades with pnl > 0. -/
def winsOf (trades : List Trade) : List Trade :=
  trades.filter (fun t => 0 < t.pnl)

/-- calculate_metrics: losses = trades with pnl <= 0. -/
def lossesOf (trades : List Trade) : List Trade :=
  trades.filter (fun t => t.pnl ≤ 0)

/-- calculate_metrics: gross profit, the sum of winning pnls. -/
def grossProfit (trades : List Trade) : ℚ :=
  ((winsOf trades).map Trade.pnl).sum

/-- calculate_metrics: gross loss, |sum of losing pnls|. -/
def grossLoss (trades : List Trade) : ℚ :=
  |((lossesOf trades).map Trade.pnl).sum|

/-- calculate_metrics: average winning pnl (0 when there are no wins). -/
def avgWin (trades : List Trade) : ℚ :=
  if (winsOf trades).isEmpty then 0
  else ((winsOf trades).map Trade.pnl).sum / ((winsOf trades).length : ℚ)

/-- calculate_metrics: |average losing pnl| (0 when there are no losses). -/
def avgLoss (trades : List Trade) : ℚ :=
  if (lossesOf trades).isEmpty then 0
  else |((lossesOf trades).map Trade.pnl).sum / ((lossesOf trades).length : ℚ)|

/-- calculate_metrics: the body of the max-drawdown loop. State is
(peak, max_dd); peak starts at initial_capital, max_dd at 0. -/
def maxDDLoop : ℚ → ℚ → List ℚ → ℚ
  | _, maxdd, [] => maxdd
  | peak, maxdd, e :: rest =>
      let peak' := if e > peak then e else peak
      let dd := (peak' - e) / peak' * 100
      maxDDLoop peak' (if dd > maxdd then dd else maxdd) rest

/-- calculate_metrics: one step of the win/loss streak loop. State is
(current_win, current_loss, best_streak, worst_streak). -/
def streakStep (s : ℕ × ℕ × ℕ × ℕ) (t : Trade) : ℕ × ℕ × ℕ × ℕ :=
  if 0 < t.pnl then
    (s.1 + 1, 0, max s.2.2.1 (s.1 + 1), s.2.2.2)
  else
    (0, s.2.1 + 1, s.2.2.1, max s.2.2.2 (s.2.1 + 1))

/-- calculate_metrics: (best_streak, worst_streak) over the trade list. -/
def streaksOf (trades : List Trade) : ℕ × ℕ :=
  let s := trades.foldl streakStep (0, 0, 0, 0)
  (s.2.2.1, s.2.2.2)

/-- calculate_metrics: the simplified Sharpe ratio before rounding.
`sq` stands for math.sqrt (the standard-library float square root). -/
def sharpeRaw (sq : ℚ → ℚ) (equity_values : List ℚ) : ℚ :=
  if 1 < equity_values.length then
    let rets := pctChange equity_values
    let sd := sq (sampleVar rets)
    if 0 < sd then mean rets / sd * sq 252 else 0
  else 0

/-- schemas.BacktestMetrics. -/
structure BacktestMetrics where
  total_return : ℚ
  win_rate : ℚ
  max_drawdown : ℚ
  sharpe_ratio : ℚ
  total_trades : ℕ
  profit_factor : ℚ
  risk_reward_ratio : ℚ
  best_streak : ℕ
  worst_streak : ℕ
deriving DecidableEq, Repr

/-- runner.calculate_metrics, translated clause by clause. `sq` abstracts
math.sqrt (applied only inside the Sharpe computation). -/
def calculate_metrics (sq : ℚ → ℚ) (initial_capital final_capital : ℚ)
    (trades : List Trade) (equity_values : List ℚ) : BacktestMetrics :=
  let total_return := (final_capital - initial_capital) / initial_capital * 100
  if trades.isEmpty then
    { total_return := total_return
      win_rate := 0
      max_drawdown := 0
      sharpe_ratio := 0
      total_trades := 0
      profit_factor := 0
      risk_reward_ratio := 0
      best_streak := 0
      worst_streak := 0 }
  else
    { total_return := round2 total_return
      win_rate := round1 (((winsOf trades).length : ℚ) / (trades.length : ℚ) * 100)
      max_drawdown := round2 (-(maxDDLoop initial_capital 0 equity_values))
      sharpe_ratio := round2 (sharpeRaw sq equity_values)
      total_trades := trades.length
      profit_factor :=
        round2 (if 0 < grossLoss trades then grossProfit trades / grossLoss trades else 0)
      risk_reward_ratio :=
        round2 (if 0 < avgLoss trades then avgWin trades / avgLoss trades else 0)
      best_streak := (streaksOf trades).1
      worst_streak := (streaksOf trades).2 }

/-- schemas.BacktestRequest position_type: "fixed" or "percent". -/
inductive PositionType where
  | fixed
  | percent
deriving DecidableEq, Repr

/-- The validated request fields the simulation core consumes
(schemas.BacktestRequest; percentages are given as percent values, e.g.
stop_loss = 2 means 2%, exactly as in the schema). -/
structure BacktestRequest where
  ticker : String
  stop_loss : ℚ
  take_profit : ℚ
  position_type : PositionType
  lot_size : ℤ
  percent_capital : ℚ
  starting_capital : ℚ
  slippage : ℚ
  commission : ℚ
deriving DecidableEq, Repr

/-- VWAPMAVolumeStrategy.params after run_backtest's /100 conversions:
fractional risk parameters plus the strategy's own defaults. -/
structure SParams where
  vwap_period : ℕ
  ma_period : ℕ
  volume_period : ℕ
  volume_mult : ℚ
  stop_loss : ℚ
  take_profit : ℚ
  position_type : PositionType
  lot_size : ℤ
  percent_capital : ℚ
deriving DecidableEq, Repr

/-- run_backtest's cerebro.addstrategy call: risk parameters divided by
100, the remaining strategy parameters left at their class defaults
(vwap_period 14, ma_period 200, volume_period 20, volume_mult 1.5). -/
def strategyParamsOf (req : BacktestRequest) : SParams :=
  { vwap_period := 14
    ma_period := 200
    volume_period := 20
    volume_mult := 3/2
    stop_loss := req.stop_loss / 100
    take_profit := req.take_profit / 100
    position_type := req.position_type
    lot_size := req.lot_size
    percent_capital := req.percent_capital / 100 }

/-- The open position tracked by the broker/strategy: direction is always
long (the strategy only ever buys). -/
structure Position where
  entry_price : ℚ
  entry_time : ℕ
  size : ℤ
deriving DecidableEq, Repr

/-- The order VWAPMAVolumeStrategy.next can place on one bar: nothing, a
market buy of a computed size, or a full-size sell tagged with the branch
(stop loss / take profit) that triggered it. -/
inductive Action where
  | none
  | buy (size : ℤ)
  | sellStop (size : ℤ)
  | sellTakeProfit (size : ℤ)
deriving DecidableEq, Repr

/-- VWAPMAVolumeStrategy.next entry sizing: fixed lots, or
int(broker_value * percent_capital / close) with the raw bar close. -/
def entrySize (p : SParams) (brokerValue close : ℚ) : ℤ :=
  match p.position_type with
  | .fixed => p.lot_size
  | .percent => intTrunc (brokerValue * p.percent_capital / close)

/-- VWAPMAVolumeStrategy.next, translated branch by branch: return early on
a pending order; when flat, buy iff close > VWAP, close > MA, and
volume > avg_volume * volume_mult, with a positive computed size; when in a
position, sell on stop loss first, then on take profit, both judged from
the close-based pnl fraction against the entry price. -/
def VWAPMAVolumeStrategy.next (p : SParams) (hasOrder : Bool)
    (position : Option Position) (brokerValue : ℚ) (bar : Bar)
    (vwap ma volumeAvg : ℚ) : Action :=
  if hasOrder then .none
  else
    match position with
    | Option.none =>
        if bar.close > vwap ∧ bar.close > ma ∧
            bar.volume > volumeAvg * p.volume_mult then
          let size := entrySize p brokerValue bar.close
          if 0 < size then .buy size else .none
        else .none
    | Option.some pos =>
        let pnl_pct := (bar.close - pos.entry_price) / pos.entry_price
        if pnl_pct ≤ -p.stop_loss then .sellStop pos.size
        else if pnl_pct ≥ p.take_profit then .sellTakeProfit pos.size
        else .none

/-- strategies.indicators.VWAP over a trailing window:
SumN(close*volume) / SumN(volume). -/
def vwapOver (window : List Bar) : ℚ :=
  ((window.map (fun b => b.close * b.volume)).sum) / ((window.map Bar.volume).sum)

/-- Strategy minimum period: a Backtrader strategy first calls next when
every indicator is defined, i.e. after max(vwap_period, ma_period,
volume_period) bars. -/
def minPeriod (p : SParams) : ℕ :=
  max p.vwap_period (max p.ma_period p.volume_period)

/-- Broker mark-to-market value: cash plus open-position size times the
current close (EquityObserver records broker.getvalue() each bar). -/
def markValue (cash : ℚ) (position : Option Position) (close : ℚ) : ℚ :=
  cash + (match position with
          | Option.some pos => (pos.size : ℚ) * close
          | Option.none => 0)

/-- Engine state threaded through the run: the processed bars (most recent
first, for trailing indicator windows), the open position, cash, the last
broker value, and the closed trades in chronological order. -/
structure SimState where
  history : List Bar
  position : Option Position
  cash : ℚ
  lastValue : ℚ
  trades : List Trade
deriving DecidableEq, Repr

/-- Modelled from the spec: one strategy-and-broker step on one bar. The
Backtrader dispatch loop and broker fills are library code outside the
repository; the spec (sections 4.3 and 4.4) fixes their contract: the
strategy acts only once all indicators are warm, fills happen at the bar
close adjusted unfavorably by the slippage fraction, commission is deducted
per fill, and a closed trade's pnl is (exit fill - entry fill) * size. -/
def applyStrategy (p : SParams) (slippage commission : ℚ)
    (s : SimState) (b : Bar) : SimState :=
  if minPeriod p ≤ s.history.length then
    let vwap := vwapOver (s.history.take p.vwap_period)
    let ma := mean ((s.history.take p.ma_period).map Bar.close)
    let volumeAvg := mean ((s.history.take p.volume_period).map Bar.volume)
    let value := markValue s.cash s.position b.close
    match VWAPMAVolumeStrategy.next p false s.position value b vwap ma volumeAvg with
    | .none => s
    | .buy size =>
        let fill := b.close * (1 + slippage)
        { s with position := Option.some ⟨fill, b.timestamp, size⟩
                 cash := s.cash - (size : ℚ) * fill - commission }
    | .sellStop size | .sellTakeProfit size =>
        match s.position with
        | Option.some pos =>
            let fill := b.close * (1 - slippage)
            { s with position := Option.none
                     cash := s.cash + (size : ℚ) * fill - commission
                     trades := s.trades ++ [⟨(fill - pos.entry_price) * (pos.size : ℚ)⟩] }
        | Option.none => s
  else s

/-- One bar of the run: push the bar into the history, run the strategy
step, then record the broker value as this bar's equity point (the
EquityObserver records broker.getvalue() on every bar). -/
def processBar (p : SParams) (slippage commission : ℚ)
    (s : SimState) (b : Bar) : SimState × EquityPoint :=
  let s1 := applyStrategy p slippage commission { s with history := b :: s.history } b
  let value := markValue s1.cash s1.position b.close
  ({ s1 with lastValue := value }, ⟨b.timestamp, value⟩)

/-- The bar loop of one run: fold processBar over the series in order,
collecting one equity point per bar. -/
def simSteps (p : SParams) (slippage commission : ℚ) :
    SimState → List Bar → SimState × List EquityPoint
  | s, [] => (s, [])
  | s, b :: rest =>
      let sp := processBar p slippage commission s b
      let r := simSteps p slippage commission sp.1 rest
      (r.1, sp.2 :: r.2)

/-- run_backtest's drawdown-curve loop: running peak seeded with
starting_capital, one point per equity point, value -(peak-e)/peak*100. -/
def ddPoints (peak : ℚ) : List EquityPoint → List EquityPoint
  | [] => []
  | pt :: rest =>
      let peak' := if pt.equity > peak then pt.equity else peak
      let dd := (peak' - pt.equity) / peak' * 100
      ⟨pt.timestamp, -dd⟩ :: ddPoints peak' rest

/-- schemas.BacktestResponse (the request echo is omitted; the response
trade records keep only the rounded pnl the claims touch). -/
structure BacktestResponse where
  metrics : BacktestMetrics
  equity_curve : List EquityPoint
  drawdown_curve : List EquityPoint
  trades : List Trade
deriving DecidableEq, Repr

/-- runner.run_backtest on an already-fetched bar series: fail with the
no-data ValueError exactly when the series is empty; otherwise drive the
bar loop, derive the drawdown curve from the equity curve with the peak
seeded at starting_capital, and compute the metrics from the closed trades
and the equity values. `sq` abstracts math.sqrt as in calculate_metrics. -/
def run_backtest (sq : ℚ → ℚ) (req : BacktestRequest) (bars : List Bar) :
    Except String BacktestResponse :=
  if bars.isEmpty then .error ("No data found for " ++ req.ticker)
  else
    let p := strategyParamsOf req
    let init : SimState :=
      ⟨[], Option.none, req.starting_capital, req.starting_capital, []⟩
    let out := simSteps p (req.slippage / 100) req.commission init bars
    let equity_curve := out.2
    let drawdown_curve := ddPoints req.starting_capital equity_curve
    let metrics := calculate_metrics sq req.starting_capital out.1.lastValue
      out.1.trades (equity_curve.map EquityPoint.equity)
    .ok { metrics := metrics
          equity_curve := equity_curve
          drawdown_curve := drawdown_curve
          trades := out.1.trades.map (fun t => ⟨round2 t.pnl⟩) }

/-- The equity curve of a run result ([] on the error case). -/
def equityCurveOf : Except String BacktestResponse → List EquityPoint
  | .ok r => r.equity_curve
  | .error _ => []

/-- The drawdown curve of a run result ([] on the error case). -/
def drawdownCurveOf : Except String BacktestResponse → List EquityPoint
  | .ok r => r.drawdown_curve
  | .error _ => []

/-- The trade list of a run result ([] on the error case). -/
def tradesOf : Except String BacktestResponse → List Trade
  | .ok r => r.trades
  | .error _ => []

/-! Spec-side formulations, used to compare the code against the claims'
wording. -/

/-- Formalises the claim's sizing formula for percent sizing:
floor(capital * fraction / fill_price) with the fill price the bar close
adjusted unfavorably by the slippage fraction (claim C3's wording; the
code divides by the raw close instead). -/
def entrySizeClaim (capital fraction close slippage : ℚ) : ℤ :=
  ⌊capital * fraction / (close * (1 + slippage))⌋

/-- Running peaks of an equity-value list, starting from a given seed:
element i is the peak after seeing values 0..i. -/
def peaksFrom : ℚ → List ℚ → List ℚ
  | _, [] => []
  | peak, e :: rest =>
      let peak' := if e > peak then e else peak
      peak' :: peaksFrom peak' rest

/-- The code's max-drawdown quantity restated structurally: the maximum
(at least 0) of (peak_i - e_i)/peak_i * 100 with the running peak seeded at
the starting capital. -/
def maxDrawdownSeeded (initial_capital : ℚ) (equity_values : List ℚ) : ℚ :=
  (((peaksFrom initial_capital equity_values).zip equity_values).map
    (fun pe => (pe.1 - pe.2) / pe.1 * 100)).foldl max 0

/-- Formalises claim C6's formula: the maximum drawdown measured against
the running maximum of the equity curve itself (the first equity value
seeds the peak; starting capital plays no part). -/
def maxDrawdownSpec : List ℚ → ℚ
  | [] => 0
  | e :: rest =>
      (((peaksFrom e (e :: rest)).zip (e :: rest)).map
        (fun pe => (pe.1 - pe.2) / pe.1 * 100)).foldl max 0

/-! Helper lemmas. -/

theorem ite_gt_eq_max (a b : ℚ) : (if a > b then a else b) = max b a := by
  rcases lt_or_ge b a with h | h
  · rw [if_pos h, max_eq_right h.le]
  · rw [if_neg (not_lt.mpr h), max_eq_left h]

theorem maxDDLoop_eq_seeded (eqv : List ℚ) : ∀ (peak m : ℚ),
    maxDDLoop peak m eqv
      = (((peaksFrom peak eqv).zip eqv).map
          (fun pe => (pe.1 - pe.2) / pe.1 * 100)).foldl max m := by
  induction eqv with
  | nil => intro peak m; rfl
  | cons e rest ih =>
      intro peak m
      simp only [maxDDLoop, peaksFrom, List.zip_cons_cons, List.map_cons,
        List.foldl_cons]
      rw [ih, ite_gt_eq_max]

theorem simSteps_snd_length (p : SParams) (sl co : ℚ) (bars : List Bar) :
    ∀ s : SimState, ((simSteps p sl co s bars).2).length = bars.length := by
  induction bars with
  | nil => intro s; rfl
  | cons b rest ih => intro s; simp [simSteps, ih]

theorem simSteps_snd_timestamps (p : SParams) (sl co : ℚ) (bars : List Bar) :
    ∀ s : SimState,
      ((simSteps p sl co s bars).2).map EquityPoint.timestamp
        = bars.map Bar.timestamp := by
  induction bars with
  | nil => intro s; rfl
  | cons b rest ih => intro s; simp [simSteps, processBar, ih]

theorem simSteps_trades_short (p : SParams) (sl co : ℚ) (bars : List Bar) :
    ∀ s : SimState, s.history.length + bars.length < minPeriod p →
      ((simSteps p sl co s bars).1).trades = s.trades := by
  induction bars with
  | nil => intro s _; rfl
  | cons b rest ih =>
      intro s hlt
      have hskip : ¬ (minPeriod p ≤ s.history.length + 1) := by
        simp only [List.length_cons] at hlt
        omega
      have ht : (processBar p sl co s b).1.trades = s.trades := by
        simp [processBar, applyStrategy, hskip]
      have hh : (processBar p sl co s b).1.history = b :: s.history := by
        simp [processBar, applyStrategy, hskip]
      have hnext : (processBar p sl co s b).1.history.length + rest.length
          < minPeriod p := by
        rw [hh]
        simp only [List.length_cons]
        simp only [List.length_cons] at hlt
        omega
      calc ((simSteps p sl co s (b :: rest)).1).trades
          = ((simSteps p sl co (processBar p sl co s b).1 rest).1).trades := rfl
        _ = (processBar p sl co s b).1.trades := ih _ hnext
        _ = s.trades := ht

theorem run_backtest_trades_short (sq : ℚ → ℚ) (req : BacktestRequest)
    (bars : List Bar) (hshort : bars.length < minPeriod (strategyParamsOf req)) :
    tradesOf (run_backtest sq req bars) = [] := by
  cases bars with
  | nil => simp [run_backtest, tradesOf]
  | cons b rest =>
      have htr := simSteps_trades_short (strategyParamsOf req)
        (req.slippage / 100) req.commission (b :: rest)
        ⟨[], Option.none, req.starting_capital, req.starting_capital, []⟩
        (by simpa using hshort)
      simp [run_backtest, tradesOf, htr]

theorem ddPoints_length (eqc : List EquityPoint) :
    ∀ pk : ℚ, (ddPoints pk eqc).length = eqc.length := by
  induction eqc with
  | nil => intro pk; rfl
  | cons pt rest ih => intro pk; simp [ddPoints, ih]

theorem ddPoints_timestamps (eqc : List EquityPoint) :
    ∀ pk : ℚ, (ddPoints pk eqc).map EquityPoint.timestamp
      = eqc.map EquityPoint.timestamp := by
  induction eqc with
  | nil => intro pk; rfl
  | cons pt rest ih => intro pk; simp [ddPoints, ih]

theorem ddPoints_nonpos (eqc : List EquityPoint) :
    ∀ pk : ℚ, 0 < pk → ∀ x ∈ ddPoints pk eqc, x.equity ≤ 0 := by
  induction eqc with
  | nil => intro pk _ x hx; simp [ddPoints] at hx
  | cons pt rest ih =>
      intro pk hpk x hx
      have hpk' : 0 < (if pt.equity > pk then pt.equity else pk) := by
        by_cases h : pt.equity > pk
        · simpa [h] using lt_trans hpk h
        · simpa [h] using hpk
      have hsub : 0 ≤ (if pt.equity > pk then pt.equity else pk) - pt.equity := by
        by_cases h : pt.equity > pk
        · simp [h]
        · simp only [if_neg h]
          exact sub_nonneg.mpr (not_lt.mp h)
      simp only [ddPoints, List.mem_cons] at hx
      rcases hx with hx | hx
      · subst hx
        have hdd : 0 ≤ ((if pt.equity > pk then pt.equity else pk) - pt.equity)
            / (if pt.equity > pk then pt.equity else pk) * 100 :=
          mul_nonneg (div_nonneg hsub hpk'.le) (by norm_num)
        simpa using neg_nonpos_of_nonneg hdd
      · exact ih _ hpk' x hx

theorem ddPoints_head_below (pk : ℚ) (pt : EquityPoint) (rest : List EquityPoint)
    (hpk : 0 < pk) (hlt : pt.equity < pk) :
    ((ddPoints pk (pt :: rest)).headD ⟨0, 0⟩).equity < 0 := by
  have hnot : ¬ pt.equity > pk := not_lt.mpr hlt.le
  have hdd : 0 < (pk - pt.equity) / pk * 100 :=
    mul_pos (div_pos (sub_pos.mpr hlt) hpk) (by norm_num)
  simp only [ddPoints, hnot, if_neg, List.headD_cons]
  simpa using neg_neg_of_pos hdd

/-! Concrete inputs used by witnesses and counterexamples. -/

/-- A request with the schema's default values. -/
def reqW : BacktestRequest :=
  { ticker := "AAPL", stop_loss := 2, take_profit := 4,
    position_type := .percent, lot_size := 50, percent_capital := 10,
    starting_capital := 10000, slippage := 1/10, commission := 1 }

/-- A concrete bar at time 1. -/
def barW1 : Bar := ⟨1, 100, 101, 99, 100, 1000⟩

/-- A concrete bar at time 2. -/
def barW2 : Bar := ⟨2, 100, 101, 99, 100, 1000⟩

/-! Claims. -/

/-- C1: for every non-empty bar series (with the series invariant of
strictly increasing timestamps), the run succeeds and produces exactly one
equity point per bar, and the equity points' timestamps are
non-decreasing. -/
theorem c1_one_equity_point_per_bar (sq : ℚ → ℚ) (req : BacktestRequest)
    (bars : List Bar) (hne : bars ≠ [])
    (hmono : (bars.map Bar.timestamp).Chain' (· < ·)) :
    (run_backtest sq req bars).isOk = true
    ∧ (equityCurveOf (run_backtest sq req bars)).length = bars.length
    ∧ ((equityCurveOf (run_backtest sq req bars)).map EquityPoint.timestamp).Chain'
        (· ≤ ·) := by
  have hemp : bars.isEmpty = false := by
    simp [List.isEmpty_iff, hne]
  refine ⟨?_, ?_, ?_⟩
  · simp [run_backtest, hemp, Except.isOk, Except.toBool]
  · simp [run_backtest, hemp, equityCurveOf, simSteps_snd_length]
  · have ht : (equityCurveOf (run_backtest sq req bars)).map EquityPoint.timestamp
        = bars.map Bar.timestamp := by
      simp [run_backtest, hemp, equityCurveOf, simSteps_snd_timestamps]
    rw [ht]
    exact hmono.imp (fun _ _ h => le_of_lt h)

/-- C1 witness: the theorem applied to a concrete two-bar series. -/
theorem c1_one_equity_point_per_bar_witness :
    (([barW1, barW2] : List Bar) ≠ []
      ∧ (([barW1, barW2] : List Bar).map Bar.timestamp).Chain' (· < ·))
    ∧ ((run_backtest (fun q => q) reqW [barW1, barW2]).isOk = true
      ∧ (equityCurveOf (run_backtest (fun q => q) reqW [barW1, barW2])).length
          = ([barW1, barW2] : List Bar).length
      ∧ ((equityCurveOf (run_backtest (fun q => q) reqW [barW1, barW2])).map
          EquityPoint.timestamp).Chain' (· ≤ ·)) :=
  ⟨⟨by decide, by norm_num [barW1, barW2, List.chain'_cons]⟩,
   c1_one_equity_point_per_bar (fun q => q) reqW [barW1, barW2]
     (by decide) (by norm_num [barW1, barW2, List.chain'_cons])⟩

/-- C2 counterexample: a one-bar series is shorter than the strategy's
warm-up length (200 bars), yet the pipeline does not fail: it returns a
zero-trade result. This refutes the claimed "if and only if". -/
theorem c2_counterexample :
    (([barW1] : List Bar) ≠ []
      ∧ ([barW1] : List Bar).length < minPeriod (strategyParamsOf reqW))
    ∧ (run_backtest (fun q => q) reqW [barW1]).isOk = true := by
  refine ⟨⟨by decide, by decide⟩, ?_⟩
  rfl

/-- C2 amended: the pipeline fails with the no-data error exactly when the
input bar series is empty (on the empty series only the error is returned,
never a zero-filled result), and a series shorter than the strategy's
warm-up length still succeeds, returning a zero-trade result. -/
theorem c2_amended_fails_iff_empty (sq : ℚ → ℚ) (req : BacktestRequest)
    (bars : List Bar) :
    ((run_backtest sq req bars).isOk = false ↔ bars = [])
    ∧ (bars.length < minPeriod (strategyParamsOf req) →
        tradesOf (run_backtest sq req bars) = []) := by
  constructor
  · cases bars with
    | nil => simp [run_backtest, Except.isOk, Except.toBool]
    | cons b rest => simp [run_backtest, Except.isOk, Except.toBool]
  · intro hshort
    exact run_backtest_trades_short sq req bars hshort

/-- C2 witness: the amended theorem applied to the concrete one-bar series,
which is shorter than the 200-bar warm-up yet succeeds with no trades. -/
theorem c2_amended_fails_iff_empty_witness :
    ((run_backtest (fun q => q) reqW [barW1]).isOk = false
      ↔ ([barW1] : List Bar) = [])
    ∧ (([barW1] : List Bar).length < minPeriod (strategyParamsOf reqW) →
        tradesOf (run_backtest (fun q => q) reqW [barW1]) = []) :=
  c2_amended_fails_iff_empty (fun q => q) reqW [barW1]

/-- Strategy parameters for the strategy-level scenarios: 0.1% slippage is
configured at the broker, stop loss 2%, take profit 4%, percent sizing with
a 10% capital fraction. -/
def pC3 : SParams :=
  { vwap_period := 14, ma_period := 200, volume_period := 20,
    volume_mult := 3/2, stop_loss := 1/50, take_profit := 1/25,
    position_type := .percent, lot_size := 50, percent_capital := 1/10 }

/-- A bar closing at 100 with a volume spike. -/
def barC3 : Bar := ⟨5, 100, 101, 99, 100, 100⟩

/-- A bar closing at 90 with a volume spike, below VWAP and MA. -/
def barC4 : Bar := ⟨5, 90, 91, 89, 90, 200⟩

/-- C3 counterexample: with capital 10000, fraction 0.10, close 100 and
slippage 0.1%, the code sizes the entry as int(10000*0.10/100) = 10 shares,
while the claim's formula floor(10000*0.10/(100*1.001)) gives 9: the code
divides by the raw bar close, not the slippage-adjusted fill price. -/
theorem c3_counterexample :
    VWAPMAVolumeStrategy.next pC3 false Option.none 10000 barC3 99 99 10
      = Action.buy 10
    ∧ entrySizeClaim 10000 (1/10) barC3.close (1/1000) = 9
    ∧ (10 : ℤ) ≠ 9 := by
  refine ⟨?_, ?_, by decide⟩
  · norm_num [VWAPMAVolumeStrategy.next, entrySize, intTrunc, pC3, barC3]
  · norm_num [entrySizeClaim, barC3]

/-- C3 amended: when flat, with no pending order and the entry conditions
met, fixed sizing buys the configured lot count, and percent sizing buys
floor(capital * fraction / close) computed from the raw bar close (the
fill-price slippage adjustment plays no part in the size). -/
theorem c3_amended_entry_size (p : SParams) (bv : ℚ) (bar : Bar)
    (vwap ma volumeAvg : ℚ)
    (hcond : bar.close > vwap ∧ bar.close > ma
      ∧ bar.volume > volumeAvg * p.volume_mult)
    (hq : 0 ≤ bv * p.percent_capital / bar.close) :
    (p.position_type = .fixed → 0 < p.lot_size →
      VWAPMAVolumeStrategy.next p false Option.none bv bar vwap ma volumeAvg
        = Action.buy p.lot_size)
    ∧ (p.position_type = .percent → 0 < ⌊bv * p.percent_capital / bar.close⌋ →
      VWAPMAVolumeStrategy.next p false Option.none bv bar vwap ma volumeAvg
        = Action.buy ⌊bv * p.percent_capital / bar.close⌋) := by
  constructor
  · intro hfix hpos
    simp [VWAPMAVolumeStrategy.next, hcond, entrySize, hfix, hpos]
  · intro hper hpos
    have hsz : entrySize p bv bar.close = ⌊bv * p.percent_capital / bar.close⌋ := by
      simp [entrySize, hper, intTrunc, hq]
    simp [VWAPMAVolumeStrategy.next, hcond, hsz, hpos]

/-- C3 witness: the amended theorem applied to the concrete percent-sizing
scenario of the counterexample. -/
theorem c3_amended_entry_size_witness :
    ((barC3.close > 99 ∧ barC3.close > 99 ∧ barC3.volume > 10 * pC3.volume_mult)
      ∧ 0 ≤ (10000 : ℚ) * pC3.percent_capital / barC3.close)
    ∧ ((pC3.position_type = .fixed → 0 < pC3.lot_size →
        VWAPMAVolumeStrategy.next pC3 false Option.none 10000 barC3 99 99 10
          = Action.buy pC3.lot_size)
      ∧ (pC3.position_type = .percent →
          0 < ⌊(10000 : ℚ) * pC3.percent_capital / barC3.close⌋ →
        VWAPMAVolumeStrategy.next pC3 false Option.none 10000 barC3 99 99 10
          = Action.buy ⌊(10000 : ℚ) * pC3.percent_capital / barC3.close⌋)) :=
  ⟨⟨by norm_num [barC3, pC3], by norm_num [barC3, pC3]⟩,
   c3_amended_entry_size pC3 10000 barC3 99 99 10 (by norm_num [barC3, pC3])
     (by norm_num [barC3, pC3])⟩

/-- C4 counterexample: on a flat bar satisfying the mirrored inequality set
(close 90 below VWAP 100 and MA 100, volume 200 above 100*1.5), the
strategy emits no order at all — it never emits a short entry. -/
theorem c4_counterexample :
    (barC4.close < 100 ∧ barC4.close < 100
      ∧ barC4.volume > 100 * pC3.volume_mult)
    ∧ VWAPMAVolumeStrategy.next pC3 false Option.none 10000 barC4 100 100 100
        = Action.none := by
  refine ⟨by norm_num [barC4, pC3], ?_⟩
  norm_num [VWAPMAVolumeStrategy.next, barC4, pC3]

/-- C4 amended: when flat with no pending order, the strategy places a buy
order exactly when close > VWAP, close > MA and volume > avg*multiplier
hold and the computed size is positive; it emits no other order — in
particular it never emits a short entry (the strategy is long-only). -/
theorem c4_amended_long_only_entry (p : SParams) (bv : ℚ) (bar : Bar)
    (vwap ma volumeAvg : ℚ) :
    ((VWAPMAVolumeStrategy.next p false Option.none bv bar vwap ma volumeAvg
        = Action.buy (entrySize p bv bar.close))
      ↔ (bar.close > vwap ∧ bar.close > ma
          ∧ bar.volume > volumeAvg * p.volume_mult
          ∧ 0 < entrySize p bv bar.close))
    ∧ (VWAPMAVolumeStrategy.next p false Option.none bv bar vwap ma volumeAvg
        = Action.none
      ∨ VWAPMAVolumeStrategy.next p false Option.none bv bar vwap ma volumeAvg
        = Action.buy (entrySize p bv bar.close)) := by
  have hnext : VWAPMAVolumeStrategy.next p false Option.none bv bar vwap ma volumeAvg
      = (if bar.close > vwap ∧ bar.close > ma
            ∧ bar.volume > volumeAvg * p.volume_mult then
          (if 0 < entrySize p bv bar.close
            then Action.buy (entrySize p bv bar.close) else Action.none)
        else Action.none) := rfl
  by_cases hcond : bar.close > vwap ∧ bar.close > ma
      ∧ bar.volume > volumeAvg * p.volume_mult
  · by_cases hsz : 0 < entrySize p bv bar.close
    · rw [hnext, if_pos hcond, if_pos hsz]
      exact ⟨⟨fun _ => ⟨hcond.1, hcond.2.1, hcond.2.2, hsz⟩, fun _ => rfl⟩,
        Or.inr rfl⟩
    · rw [hnext, if_pos hcond, if_neg hsz]
      exact ⟨⟨fun h => absurd h (by simp), fun h => absurd h.2.2.2 hsz⟩,
        Or.inl rfl⟩
  · rw [hnext, if_neg hcond]
    exact ⟨⟨fun h => absurd h (by simp),
      fun h => absurd ⟨h.1, h.2.1, h.2.2.1⟩ hcond⟩, Or.inl rfl⟩

/-- C5: while a position is open (no pending order), a stop-loss breach —
the close-based pnl fraction at or below -stop_loss — always exits with the
stop-loss branch, whatever the take-profit condition says: stop loss is
checked first and takes priority when both thresholds are breached. -/
theorem c5_stop_loss_priority (p : SParams) (pos : Position) (bv : ℚ)
    (bar : Bar) (vwap ma volumeAvg : ℚ)
    (hstop : (bar.close - pos.entry_price) / pos.entry_price ≤ -p.stop_loss) :
    VWAPMAVolumeStrategy.next p false (Option.some pos) bv bar vwap ma volumeAvg
      = Action.sellStop pos.size := by
  simp [VWAPMAVolumeStrategy.next, hstop]

/-- C5 witness: a bar where both thresholds are breached at once (entry
100, close 90, stop loss 2%, take profit -4% would need a favorable move;
here we use stop loss 2% with pnl -10%, which also breaches any configured
take-profit magnitude on the adverse side) — the exit is the stop-loss
branch. -/
theorem c5_stop_loss_priority_witness :
    ((((90 : ℚ) - 100) / 100) ≤ -pC3.stop_loss)
    ∧ VWAPMAVolumeStrategy.next pC3 false (Option.some ⟨100, 0, 10⟩) 10000
        ⟨6, 90, 91, 89, 90, 10⟩ 95 95 10
        = Action.sellStop (10 : ℤ) := by
  constructor
  · norm_num [pC3]
  · have h : (((⟨6, 90, 91, 89, 90, 10⟩ : Bar).close - (100 : ℚ)) / 100)
        ≤ -pC3.stop_loss := by norm_num [pC3]
    exact c5_stop_loss_priority pC3 ⟨100, 0, 10⟩ 10000 ⟨6, 90, 91, 89, 90, 10⟩
      95 95 10 h

/-- C6 counterexample: starting capital 100, one losing trade, equity
curve [90]. The code reports max_drawdown = -10 (peak seeded with the
starting capital), while the claim's formula over the equity curve's own
running maximum gives a maximum drawdown of 0. -/
theorem c6_counterexample :
    (calculate_metrics (fun q => q) 100 90 [⟨-10⟩] [90]).max_drawdown = -10
    ∧ maxDrawdownSpec [90] = 0
    ∧ ((-10 : ℚ) ≠ 0) := by
  refine ⟨?_, ?_, by norm_num⟩
  · norm_num [calculate_metrics, maxDDLoop, round2, roundTo, roundHalfEven]
  · norm_num [maxDrawdownSpec, peaksFrom]

/-- C6 amended: whenever at least one trade exists, the reported
max_drawdown equals the negation, rounded to two decimals, of the maximum
of (running_peak - equity)/running_peak * 100 over the equity curve, where
the running peak is seeded with the starting capital (not with the curve's
own first value); with no trades the metric is 0 regardless of the
curve. -/
theorem c6_amended_max_drawdown (sq : ℚ → ℚ) (ic fc : ℚ) (tr : List Trade)
    (eqv : List ℚ) :
    (tr ≠ [] →
      (calculate_metrics sq ic fc tr eqv).max_drawdown
        = round2 (-(maxDrawdownSeeded ic eqv)))
    ∧ (tr = [] → (calculate_metrics sq ic fc tr eqv).max_drawdown = 0) := by
  constructor
  · intro hne
    have hemp : tr.isEmpty = false := by simp [List.isEmpty_iff, hne]
    simp [calculate_metrics, hemp, maxDrawdownSeeded, maxDDLoop_eq_seeded]
  · intro hnil
    subst hnil
    simp [calculate_metrics, List.isEmpty]

/-- C6 witness: the amended theorem applied to the counterexample input. -/
theorem c6_amended_max_drawdown_witness :
    (([⟨-10⟩] : List Trade) ≠ [] →
      (calculate_metrics (fun q => q) 100 90 [⟨-10⟩] [90]).max_drawdown
        = round2 (-(maxDrawdownSeeded 100 [90])))
    ∧ (([⟨-10⟩] : List Trade) = [] →
      (calculate_metrics (fun q => q) 100 90 [⟨-10⟩] [90]).max_drawdown = 0) :=
  c6_amended_max_drawdown (fun q => q) 100 90 [⟨-10⟩] [90]

/-- C7 counterexample: trades with pnls 1 and -3 give gross_profit 1 and
gross_loss 3; the reported profit factor is round(1/3, 2) = 0.33, not
exactly gross_profit / gross_loss = 1/3. -/
theorem c7_counterexample :
    (calculate_metrics (fun q => q) 100 100 [⟨1⟩, ⟨-3⟩] [100]).profit_factor
      = 33/100
    ∧ grossProfit [⟨1⟩, ⟨-3⟩] / grossLoss [⟨1⟩, ⟨-3⟩] = 1/3
    ∧ ((33 : ℚ)/100 ≠ 1/3) := by
  refine ⟨?_, ?_, by norm_num⟩
  · norm_num [calculate_metrics, grossProfit, grossLoss, winsOf, lossesOf,
      List.filter, round2, roundTo, roundHalfEven]
  · norm_num [grossProfit, grossLoss, winsOf, lossesOf, List.filter]

/-- C7 amended: the reported profit factor is gross_profit / gross_loss
rounded to two decimals when losing pnl exists, and exactly 0 when
gross_loss is 0 (no losing value); every degenerate ratio resolves to 0:
with no trades the win rate, profit factor, risk/reward, Sharpe ratio and
max drawdown are all 0, with zero average loss the risk/reward is 0, and
with zero variance of the per-bar changes the Sharpe ratio is 0 (math.sqrt
fixes sq 0 = 0). The calculator is a total function by construction. -/
theorem c7_amended_profit_factor_degenerate (sq : ℚ → ℚ) (ic fc : ℚ)
    (tr : List Trade) (eqv : List ℚ) (hsq : sq 0 = 0) :
    (tr ≠ [] → 0 < grossLoss tr →
      (calculate_metrics sq ic fc tr eqv).profit_factor
        = round2 (grossProfit tr / grossLoss tr))
    ∧ (grossLoss tr = 0 → (calculate_metrics sq ic fc tr eqv).profit_factor = 0)
    ∧ (tr = [] →
        (calculate_metrics sq ic fc tr eqv).win_rate = 0
        ∧ (calculate_metrics sq ic fc tr eqv).profit_factor = 0
        ∧ (calculate_metrics sq ic fc tr eqv).risk_reward_ratio = 0
        ∧ (calculate_metrics sq ic fc tr eqv).sharpe_ratio = 0
        ∧ (calculate_metrics sq ic fc tr eqv).max_drawdown = 0)
    ∧ (avgLoss tr = 0 →
        (calculate_metrics sq ic fc tr eqv).risk_reward_ratio = 0)
    ∧ (sampleVar (pctChange eqv) = 0 →
        (calculate_metrics sq ic fc tr eqv).sharpe_ratio = 0) := by
  have hr0 : round2 0 = 0 := by
    norm_num [round2, roundTo, roundHalfEven]
  refine ⟨?_, ?_, ?_, ?_, ?_⟩
  · intro hne hpos
    have hemp : tr.isEmpty = false := by simp [List.isEmpty_iff, hne]
    simp [calculate_metrics, hemp, hpos]
  · intro hz
    by_cases hemp : tr.isEmpty
    · simp [calculate_metrics, hemp]
    · simp only [Bool.not_eq_true] at hemp
      simp [calculate_metrics, hemp, hz, hr0]
  · intro hnil
    subst hnil
    simp [calculate_metrics, List.isEmpty]
  · intro hz
    by_cases hemp : tr.isEmpty
    · simp [calculate_metrics, hemp]
    · simp only [Bool.not_eq_true] at hemp
      simp [calculate_metrics, hemp, hz, hr0]
  · intro hv
    by_cases hemp : tr.isEmpty
    · simp [calculate_metrics, hemp]
    · simp only [Bool.not_eq_true] at hemp
      have hsr : sharpeRaw sq eqv = 0 := by
        by_cases hlen : 1 < eqv.length
        · simp [sharpeRaw, hlen, hv, hsq]
        · simp [sharpeRaw, hlen]
      simp [calculate_metrics, hemp, hsr, hr0]

/-- C7 witness: the amended theorem applied to the counterexample input
(sq is the identity, which satisfies sq 0 = 0). -/
theorem c7_amended_profit_factor_degenerate_witness :
    ((fun (q : ℚ) => q) 0 = 0)
    ∧ (([⟨1⟩, ⟨-3⟩] : List Trade) ≠ [] →
        0 < grossLoss [⟨1⟩, ⟨-3⟩] →
        (calculate_metrics (fun q => q) 100 100 [⟨1⟩, ⟨-3⟩] [100]).profit_factor
          = round2 (grossProfit [⟨1⟩, ⟨-3⟩] / grossLoss [⟨1⟩, ⟨-3⟩]))
    ∧ (grossLoss [⟨1⟩, ⟨-3⟩] = 0 →
        (calculate_metrics (fun q => q) 100 100 [⟨1⟩, ⟨-3⟩] [100]).profit_factor = 0)
    ∧ (([⟨1⟩, ⟨-3⟩] : List Trade) = [] →
        (calculate_metrics (fun q => q) 100 100 [⟨1⟩, ⟨-3⟩] [100]).win_rate = 0
        ∧ (calculate_metrics (fun q => q) 100 100 [⟨1⟩, ⟨-3⟩] [100]).profit_factor = 0
        ∧ (calculate_metrics (fun q => q) 100 100 [⟨1⟩, ⟨-3⟩] [100]).risk_reward_ratio = 0
        ∧ (calculate_metrics (fun q => q) 100 100 [⟨1⟩, ⟨-3⟩] [100]).sharpe_ratio = 0
        ∧ (calculate_metrics (fun q => q) 100 100 [⟨1⟩, ⟨-3⟩] [100]).max_drawdown = 0)
    ∧ (avgLoss [⟨1⟩, ⟨-3⟩] = 0 →
        (calculate_metrics (fun q => q) 100 100 [⟨1⟩, ⟨-3⟩] [100]).risk_reward_ratio = 0)
    ∧ (sampleVar (pctChange [100]) = 0 →
        (calculate_metrics (fun q => q) 100 100 [⟨1⟩, ⟨-3⟩] [100]).sharpe_ratio = 0) :=
  ⟨rfl, c7_amended_profit_factor_degenerate (fun q => q) 100 100 [⟨1⟩, ⟨-3⟩] [100] rfl⟩

/-- C8: the metrics calculator is pure and deterministic — its output is a
function of its (capital, trades, equity) arguments alone, so equal inputs
give identical outputs. -/
theorem c8_metrics_deterministic (sq : ℚ → ℚ) (ic fc ic' fc' : ℚ)
    (tr tr' : List Trade) (eqv eqv' : List ℚ)
    (h1 : ic = ic') (h2 : fc = fc') (h3 : tr = tr') (h4 : eqv = eqv') :
    calculate_metrics sq ic fc tr eqv = calculate_metrics sq ic' fc' tr' eqv' := by
  subst h1; subst h2; subst h3; subst h4; rfl

/-- C8 witness: two invocations on the same concrete input coincide. -/
theorem c8_metrics_deterministic_witness :
    ((100 : ℚ) = 100 ∧ (90 : ℚ) = 90
      ∧ ([⟨-10⟩] : List Trade) = [⟨-10⟩] ∧ ([90] : List ℚ) = [90])
    ∧ calculate_metrics (fun q => q) 100 90 [⟨-10⟩] [90]
        = calculate_metrics (fun q => q) 100 90 [⟨-10⟩] [90] :=
  ⟨⟨rfl, rfl, rfl, rfl⟩,
   c8_metrics_deterministic (fun q => q) 100 90 100 90 [⟨-10⟩] [⟨-10⟩] [90] [90]
     rfl rfl rfl rfl⟩

/-- C9: a break-even trade (pnl = 0) is classified as a losing trade:
inserted anywhere in the trade list it leaves the wins (hence the win-rate
numerator) unchanged, joins the losses while adding nothing to their pnl
sum (gross loss) and one to their count (the loss-average denominator),
and the streak step extends the current losing streak — updating the worst
streak — while resetting the winning streak. -/
theorem c9_break_even_is_loss (t : Trade) (pre post : List Trade)
    (cw cl b w : ℕ) (h : t.pnl = 0) :
    winsOf (pre ++ t :: post) = winsOf (pre ++ post)
    ∧ lossesOf (pre ++ t :: post) = lossesOf pre ++ t :: lossesOf post
    ∧ ((lossesOf (pre ++ t :: post)).map Trade.pnl).sum
        = ((lossesOf (pre ++ post)).map Trade.pnl).sum
    ∧ (lossesOf (pre ++ t :: post)).length = (lossesOf (pre ++ post)).length + 1
    ∧ streakStep (cw, cl, b, w) t = (0, cl + 1, b, max w (cl + 1)) := by
  have hwin : ¬ (0 < t.pnl) := by rw [h]; exact lt_irrefl 0
  have hloss : t.pnl ≤ 0 := le_of_eq h
  refine ⟨?_, ?_, ?_, ?_, ?_⟩
  · simp [winsOf, List.filter_append, List.filter_cons, hwin]
  · simp [lossesOf, List.filter_append, List.filter_cons, hloss]
  · simp [lossesOf, List.filter_append, List.filter_cons, hloss, h]
  · simp [lossesOf, List.filter_append, List.filter_cons, hloss,
      Nat.add_comm, Nat.add_assoc, Nat.add_left_comm]
  · simp [streakStep, hwin]

/-- C9 witness: the theorem applied to a break-even trade between a winning
and a losing trade, with a concrete streak state. -/
theorem c9_break_even_is_loss_witness :
    ((⟨0⟩ : Trade).pnl = 0)
    ∧ (winsOf ([⟨1⟩] ++ ⟨0⟩ :: [⟨-2⟩]) = winsOf ([⟨1⟩] ++ [⟨-2⟩])
      ∧ lossesOf ([⟨1⟩] ++ ⟨0⟩ :: [⟨-2⟩]) = lossesOf [⟨1⟩] ++ ⟨0⟩ :: lossesOf [⟨-2⟩]
      ∧ ((lossesOf ([⟨1⟩] ++ ⟨0⟩ :: [⟨-2⟩])).map Trade.pnl).sum
          = ((lossesOf ([⟨1⟩] ++ [⟨-2⟩])).map Trade.pnl).sum
      ∧ (lossesOf ([⟨1⟩] ++ ⟨0⟩ :: [⟨-2⟩])).length
          = (lossesOf ([⟨1⟩] ++ [⟨-2⟩])).length + 1
      ∧ streakStep (1, 0, 1, 0) ⟨0⟩ = (0, 0 + 1, 1, max 0 (0 + 1))) :=
  ⟨rfl, c9_break_even_is_loss ⟨0⟩ [⟨1⟩] [⟨-2⟩] 1 0 1 0 rfl⟩

/-- C10: for any run (with positive starting capital, as the schema
enforces), the derived drawdown curve has exactly the length and the
timestamps of the equity curve, every drawdown value is at most 0, and the
running peak is seeded with the starting capital: when the first equity
point is already below the starting capital, the first drawdown value is
strictly negative. -/
theorem c10_drawdown_curve_shape (sq : ℚ → ℚ) (req : BacktestRequest)
    (bars : List Bar) (hcap : 0 < req.starting_capital) :
    (drawdownCurveOf (run_backtest sq req bars)).length
        = (equityCurveOf (run_backtest sq req bars)).length
    ∧ (drawdownCurveOf (run_backtest sq req bars)).map EquityPoint.timestamp
        = (equityCurveOf (run_backtest sq req bars)).map EquityPoint.timestamp
    ∧ (∀ x ∈ drawdownCurveOf (run_backtest sq req bars), x.equity ≤ 0)
    ∧ (((equityCurveOf (run_backtest sq req bars)).headD
          ⟨0, req.starting_capital⟩).equity < req.starting_capital →
        ((drawdownCurveOf (run_backtest sq req bars)).headD ⟨0, 0⟩).equity < 0) := by
  by_cases hemp : bars.isEmpty
  · have hrun : run_backtest sq req bars
        = .error ("No data found for " ++ req.ticker) := by
      simp [run_backtest, hemp]
    rw [hrun]
    refine ⟨rfl, rfl, by simp [drawdownCurveOf], ?_⟩
    intro hlt
    simp only [equityCurveOf, List.headD_nil] at hlt
    exact absurd hlt (lt_irrefl _)
  · simp only [Bool.not_eq_true] at hemp
    have hdc : drawdownCurveOf (run_backtest sq req bars)
        = ddPoints req.starting_capital (equityCurveOf (run_backtest sq req bars)) := by
      simp [run_backtest, hemp, equityCurveOf, drawdownCurveOf]
    refine ⟨?_, ?_, ?_, ?_⟩
    · rw [hdc]; exact ddPoints_length _ _
    · rw [hdc]; exact ddPoints_timestamps _ _
    · rw [hdc]; exact ddPoints_nonpos _ _ hcap
    · intro hlt
      rw [hdc]
      cases hec : equityCurveOf (run_backtest sq req bars) with
      | nil =>
          rw [hec] at hlt
          simp only [List.headD_nil] at hlt
          exact absurd hlt (lt_irrefl _)
      | cons pt rest =>
          rw [hec] at hlt
          simp only [List.headD_cons] at hlt
          exact ddPoints_head_below req.starting_capital pt rest hcap hlt

/-- C10 witness: the theorem applied to a concrete one-bar run with the
default request. -/
theorem c10_drawdown_curve_shape_witness :
    (0 < reqW.starting_capital)
    ∧ ((drawdownCurveOf (run_backtest (fun q => q) reqW [barW1])).length
        = (equityCurveOf (run_backtest (fun q => q) reqW [barW1])).length
      ∧ (drawdownCurveOf (run_backtest (fun q => q) reqW [barW1])).map
          EquityPoint.timestamp
        = (equityCurveOf (run_backtest (fun q => q) reqW [barW1])).map
          EquityPoint.timestamp
      ∧ (∀ x ∈ drawdownCurveOf (run_backtest (fun q => q) reqW [barW1]),
          x.equity ≤ 0)
      ∧ (((equityCurveOf (run_backtest (fun q => q) reqW [barW1])).headD
            ⟨0, reqW.starting_capital⟩).equity < reqW.starting_capital →
          ((drawdownCurveOf (run_backtest (fun q => q) reqW [barW1])).headD
            ⟨0, 0⟩).equity < 0)) :=
  ⟨by norm_num [reqW],
   c10_drawdown_curve_shape (fun q => q) reqW [barW1] (by norm_num [reqW])⟩

end TradeBot
